import Mathlib

/-!
Shallow embedding of the HTTP stream recompressor (src/index.js) and proofs of
the specification claims.  Bytes are modelled as `List Nat`, chunk sequences as
`List (List Nat)`.  The zlib codecs are abstract byte functions collected in a
`Zlib` record; their round-trip behaviour is an explicit hypothesis where a
claim needs it.
-/

/-- JavaScript string coercion `'' + x` for a possibly absent header value:
`undefined` coerces to the string "undefined". -/
def jsStr : Option String → String
  | none => "undefined"
  | some s => s

/-- ASCII model of JavaScript `String.prototype.toLowerCase`. -/
def strLower (s : String) : String :=
  String.mk (s.data.map Char.toLower)

/-- Does the first character list start with the second one? -/
def charsStartWith : List Char → List Char → Bool
  | _, [] => true
  | [], _ :: _ => false
  | c :: cs, p :: ps => c == p && charsStartWith cs ps

/-- Substring containment on character lists. -/
def charsContain : List Char → List Char → Bool
  | [], pat => pat.isEmpty
  | c :: cs, pat => charsStartWith (c :: cs) pat || charsContain cs pat

/-- Model of JavaScript `String.prototype.includes`. -/
def strContains (s pat : String) : Bool :=
  charsContain s.data pat.data

/-- Line terminators that JavaScript's regexp `.` does not match. -/
def isLineTerm (c : Char) : Bool :=
  c == '\n' || c == '\r' || c.toNat == 0x2028 || c.toNat == 0x2029

/-- Model of `s.replace(/\/.*/, '')` (src/index.js line 95): the first match
starts at the first '/' and extends to the next line terminator or the end of
the string; that match is removed. -/
def stripSlashRestAux : List Char → List Char
  | [] => []
  | c :: cs => if c == '/' then cs.dropWhile (fun d => !isLineTerm d)
               else c :: stripSlashRestAux cs

def stripSlashRest (s : String) : String :=
  String.mk (stripSlashRestAux s.data)

/-- The text of a string up to (excluding) the first '/'. -/
def takeBeforeSlash (s : String) : String :=
  String.mk (s.data.takeWhile (fun c => c != '/'))

/-- Total byte count of a chunk sequence. -/
def sumLen : List (List Nat) → Nat
  | [] => 0
  | c :: cs => c.length + sumLen cs

/-- Size of a megabyte in bytes (src/index.js line 9). -/
def MB : Nat := 1024 * 1024

/-- Abstract model of the zlib codec functions used by src/index.js.
`brotliCompressBuffer` bakes in the size hint that `compressBuffer` passes
(line 24); `brotliCompressStream` has no size hint (line 22, called with one
argument at line 150). -/
structure Zlib where
  brotliCompressBuffer : Bool → List Nat → List Nat
  brotliCompressStream : Bool → List Nat → List Nat
  brotliDecompress : List Nat → List Nat
  gzipCompressBuffer : Bool → List Nat → List Nat
  gzipCompressStream : Bool → List Nat → List Nat
  gunzip : List Nat → List Nat
  deflateCompressBuffer : Bool → List Nat → List Nat
  deflateCompressStream : Bool → List Nat → List Nat
  inflate : List Nat → List Nat

/-- The defining property of real zlib codecs: decompressing a compressed
buffer returns the original bytes. -/
def Zlib.RoundTrip (z : Zlib) : Prop :=
  (∀ fast b, z.brotliDecompress (z.brotliCompressBuffer fast b) = b) ∧
  (∀ fast b, z.brotliDecompress (z.brotliCompressStream fast b) = b) ∧
  (∀ fast b, z.gunzip (z.gzipCompressBuffer fast b) = b) ∧
  (∀ fast b, z.gunzip (z.gzipCompressStream fast b) = b) ∧
  (∀ fast b, z.inflate (z.deflateCompressBuffer fast b) = b) ∧
  (∀ fast b, z.inflate (z.deflateCompressStream fast b) = b)

/-- Request headers read by the pipeline (only `accept-encoding`,
src/index.js line 107). -/
structure ReqHeaders where
  acceptEncoding : Option String
deriving DecidableEq

/-- Response headers read and written by the pipeline: `content-encoding`,
`content-type`, `content-length`, `transfer-encoding` and `vary`. -/
structure RespHeaders where
  contentEncoding : Option String
  contentType : Option String
  contentLength : Option Nat
  transferEncoding : Option String
  vary : Option String
deriving DecidableEq

/-- An encoding descriptor as produced by the `ENCODINGS` factories
(src/index.js lines 12-66).  `compressStream` returns `none` where the source
returns `false` (the raw descriptor); likewise `decompressStream`. -/
structure Encoding where
  name : String
  compressStream : Bool → Option (List Nat → List Nat)
  decompressStream : Option (List Nat → List Nat)
  compressBuffer : List Nat → Bool → List Nat
  decompressBuffer : List Nat → List Nat
  setEncoding : RespHeaders → RespHeaders

/-- `ENCODINGS.br` (src/index.js lines 13-28). -/
def ENCODINGS.br (z : Zlib) : Encoding where
  name := "br"
  compressStream := fun fast => some (z.brotliCompressStream fast)
  decompressStream := some z.brotliDecompress
  compressBuffer := fun buffer fast => z.brotliCompressBuffer fast buffer
  decompressBuffer := z.brotliDecompress
  setEncoding := fun h => { h with contentEncoding := some "br" }

/-- `ENCODINGS.gzip` (src/index.js lines 29-42). -/
def ENCODINGS.gzip (z : Zlib) : Encoding where
  name := "gzip"
  compressStream := fun fast => some (z.gzipCompressStream fast)
  decompressStream := some z.gunzip
  compressBuffer := fun buffer fast => z.gzipCompressBuffer fast buffer
  decompressBuffer := z.gunzip
  setEncoding := fun h => { h with contentEncoding := some "gzip" }

/-- `ENCODINGS.deflate` (src/index.js lines 43-56). -/
def ENCODINGS.deflate (z : Zlib) : Encoding where
  name := "deflate"
  compressStream := fun fast => some (z.deflateCompressStream fast)
  decompressStream := some z.inflate
  compressBuffer := fun buffer fast => z.deflateCompressBuffer fast buffer
  decompressBuffer := z.inflate
  setEncoding := fun h => { h with contentEncoding := some "deflate" }

/-- `ENCODINGS.raw` (src/index.js lines 57-65): no compression, and
`setEncoding` deletes the content-encoding header. -/
def ENCODINGS.raw : Encoding where
  name := "raw"
  compressStream := fun _ => none
  decompressStream := none
  compressBuffer := fun buffer _ => buffer
  decompressBuffer := fun buffer => buffer
  setEncoding := fun h => { h with contentEncoding := none }

/-- `detectEncoding` (src/index.js lines 167-174): lower-case the coerced
text, then check substring containment of "br", "gzip", "deflate" in that
priority order; fall back to the raw descriptor. -/
def detectEncoding (z : Zlib) (text : Option String) (ignoreBrotli : Bool) : Encoding :=
  if !ignoreBrotli && strContains (strLower (jsStr text)) "br" then ENCODINGS.br z
  else if strContains (strLower (jsStr text)) "gzip" then ENCODINGS.gzip z
  else if strContains (strLower (jsStr text)) "deflate" then ENCODINGS.deflate z
  else ENCODINGS.raw

/-- Events observable on one `BufferStream` instance: the `handleStream`
callback (stream start) and the `handleBuffer` callback carrying the
concatenated buffered bytes. -/
inductive BSEvent where
  | streamStart : BSEvent
  | bufferComplete (bytes : List Nat) : BSEvent
deriving DecidableEq

/-- Result of running one `BufferStream` over a whole chunk sequence:
the chunks pushed downstream, the callback events, the final value of
`bufferMode`, and the final `buffers` array. -/
structure BSRun where
  emitted : List (List Nat)
  events : List BSEvent
  finalBufferMode : Bool
  buffered : List (List Nat)
deriving DecidableEq

/-- One run of the transform built by `BufferStream` (src/index.js lines
184-211) over a list of incoming chunks, carrying the mutable state
`buffers`, `size`, `bufferMode`.  While buffering, a chunk is appended and,
once `size ≥ maxSize`, `handleStream` fires and the buffered chunks are
re-emitted; in stream mode chunks pass through; at end-of-input while still
buffering, `handleBuffer` fires with the concatenation. -/
def bsRun (maxSize : Nat) : List (List Nat) → List (List Nat) → Nat → Bool → BSRun
  | [], buffers, _, bufferMode =>
    if bufferMode then ⟨[], [BSEvent.bufferComplete (List.flatten buffers)], true, buffers⟩
    else ⟨[], [], false, buffers⟩
  | chunk :: rest, buffers, size, bufferMode =>
    if bufferMode then
      if maxSize ≤ size + chunk.length then
        let r := bsRun maxSize rest (buffers ++ [chunk]) (size + chunk.length) false
        ⟨(buffers ++ [chunk]) ++ r.emitted, BSEvent.streamStart :: r.events,
          r.finalBufferMode, r.buffered⟩
      else bsRun maxSize rest (buffers ++ [chunk]) (size + chunk.length) true
    else
      let r := bsRun maxSize rest buffers size false
      ⟨chunk :: r.emitted, r.events, r.finalBufferMode, r.buffered⟩

/-- `BufferStream(maxSize, handleBuffer, handleStream)` run from its initial
state (`buffers = []`, `size = 0`, `bufferMode = true`). -/
def BufferStream (maxSize : Nat) (chunks : List (List Nat)) : BSRun :=
  bsRun maxSize chunks [] 0 true

/-- Which finalization path a pipeline run took. -/
inductive Mode where
  | buffer : Mode
  | stream : Mode
deriving DecidableEq

/-- Calls made on the Express response object. -/
inductive SinkEvent where
  | setStatus (code : Nat) : SinkEvent
  | setHeaders (h : RespHeaders) : SinkEvent
  | endBody (b : List Nat) : SinkEvent
  | pipeBody (b : List Nat) : SinkEvent
deriving DecidableEq

/-- Observable outcome of one `httpStreamRecompress` run. -/
structure RunResult where
  encodingInName : String
  encodingOutName : String
  mode : Mode
  status : Nat
  headers : RespHeaders
  body : List Nat
  events : List SinkEvent

/-- `encodingIn` of the pipeline (src/index.js line 91): detected from the
response's content-encoding header with the ordinary accept-header logic and
`ignoreBrotli = false`. -/
def encodingInOf (z : Zlib) (rs : RespHeaders) : Encoding :=
  detectEncoding z rs.contentEncoding false

/-- The media-type test of src/index.js lines 95-103: the content-type after
`replace(/\/.*/, '')` and lower-casing equals audio, image or video. -/
def mediaType (rs : RespHeaders) : Bool :=
  strLower (stripSlashRest (jsStr rs.contentType)) == "audio" ||
  strLower (stripSlashRest (jsStr rs.contentType)) == "image" ||
  strLower (stripSlashRest (jsStr rs.contentType)) == "video"

/-- `encodingOut` of the pipeline (src/index.js lines 98-108): raw for media
types, otherwise detected from accept-encoding, skipping brotli when fast
compression is on and the input is gzip. -/
def encodingOutOf (z : Zlib) (rq : ReqHeaders) (rs : RespHeaders) (fast : Bool) : Encoding :=
  if mediaType rs then ENCODINGS.raw
  else detectEncoding z rq.acceptEncoding (fast && ((encodingInOf z rs).name == "gzip"))

/-- Response headers after negotiation (src/index.js lines 111-114): `vary`
is set to accept-encoding, then `encodingOut.setEncoding` patches
content-encoding. -/
def headersNegotiated (z : Zlib) (rq : ReqHeaders) (rs : RespHeaders) (fast : Bool) : RespHeaders :=
  (encodingOutOf z rq rs fast).setEncoding { rs with vary := some "accept-encoding" }

/-- The chunk sequence entering the BufferStream (src/index.js lines 116-120):
the input, piped through `encodingIn.decompressStream()` when present.  The
decompressor's output chunking is not observable, so it is modelled as a
single chunk. -/
def decodedChunks (z : Zlib) (rs : RespHeaders) (chunks : List (List Nat)) : List (List Nat) :=
  match (encodingInOf z rs).decompressStream with
  | some d => [d (List.flatten chunks)]
  | none => chunks

/-- Apply `encodingOut.compressStream(fast)` when it returns a transform
(src/index.js lines 150-151). -/
def applyCompressStream (e : Encoding) (fast : Bool) (b : List Nat) : List Nat :=
  match e.compressStream fast with
  | some c => c b
  | none => b

/-- The buffer-mode finalization callback (src/index.js lines 124-139):
compress the whole buffered content, delete transfer-encoding, set
content-length to the compressed length, send status 200 with the headers and
end with the compressed buffer. -/
def bufferFinalize (z : Zlib) (rq : ReqHeaders) (rs : RespHeaders)
    (streamIn : List (List Nat)) (fast : Bool) : RunResult :=
  let encodingOut := encodingOutOf z rq rs fast
  let buffer := List.flatten (BufferStream (16 * MB) (decodedChunks z rs streamIn)).buffered
  let buffer2 := encodingOut.compressBuffer buffer fast
  let h3 := { headersNegotiated z rq rs fast with
              transferEncoding := none, contentLength := some buffer2.length }
  { encodingInName := (encodingInOf z rs).name
    encodingOutName := encodingOut.name
    mode := Mode.buffer
    status := 200
    headers := h3
    body := buffer2
    events := [SinkEvent.setStatus 200, SinkEvent.setHeaders h3, SinkEvent.endBody buffer2] }

/-- The stream-mode finalization callback (src/index.js lines 140-155): set
transfer-encoding chunked, delete content-length, send status 200 with the
headers, then pipe the (optionally stream-compressed) bytes to the response. -/
def streamFinalize (z : Zlib) (rq : ReqHeaders) (rs : RespHeaders)
    (streamIn : List (List Nat)) (fast : Bool) : RunResult :=
  let encodingOut := encodingOutOf z rq rs fast
  let h3 := { headersNegotiated z rq rs fast with
              transferEncoding := some "chunked", contentLength := none }
  let body := applyCompressStream encodingOut fast
      (List.flatten (BufferStream (16 * MB) (decodedChunks z rs streamIn)).emitted)
  { encodingInName := (encodingInOf z rs).name
    encodingOutName := encodingOut.name
    mode := Mode.stream
    status := 200
    headers := h3
    body := body
    events := [SinkEvent.setStatus 200, SinkEvent.setHeaders h3, SinkEvent.pipeBody body] }

/-- `httpStreamRecompress` (src/index.js lines 88-158): negotiate encodings,
decompress if needed, feed the bytes through a 16 MiB `BufferStream`, and
finalize on whichever of the two callbacks fires. -/
def httpStreamRecompress (z : Zlib) (rq : ReqHeaders) (rs : RespHeaders)
    (streamIn : List (List Nat)) (fast : Bool) : RunResult :=
  if (BufferStream (16 * MB) (decodedChunks z rs streamIn)).finalBufferMode then
    bufferFinalize z rq rs streamIn fast
  else
    streamFinalize z rq rs streamIn fast

/-- A job sitting in the concurrency-1 `PQueue` (src/index.js lines 69-72). -/
structure QueueJob where
  run : RunResult

/-- The jobs that one call to `httpStreamRecompress` submits to the queue.
The source wraps its whole body in `queue.add(() => new Promise(resolve =>
...))` (src/index.js line 89), whose promise resolves only after the response
has ended in either mode, so the single submitted job performs the entire
pipeline whichever finalization path it takes. -/
def queuedJobs (z : Zlib) (rq : ReqHeaders) (rs : RespHeaders)
    (streamIn : List (List Nat)) (fast : Bool) : List QueueJob :=
  [⟨httpStreamRecompress z rq rs streamIn fast⟩]

/-- Outcome of a Node zlib one-shot call as delivered to its callback: either
a result buffer or an error. -/
inductive ZlibOutcome where
  | ok (b : List Nat) : ZlibOutcome
  | error (e : String) : ZlibOutcome
deriving DecidableEq

/-- Settlement of a JavaScript promise over byte buffers; `resolved none`
models resolving with `undefined`. -/
inductive PromiseResult where
  | resolved (v : Option (List Nat)) : PromiseResult
  | rejected (e : String) : PromiseResult
deriving DecidableEq

/-- Embeds the executor `res => zlib.xxx(buffer, opts, (e, b) => res(b))` of
`compressBuffer` in ENCODINGS.br and ENCODINGS.gzip (src/index.js lines 24 and
38, likewise line 52): the promise is resolved with `b` whether or not zlib
reported an error `e`, and is never rejected. -/
def compressBufferPromise (outcome : ZlibOutcome) : PromiseResult :=
  match outcome with
  | ZlibOutcome.ok b => PromiseResult.resolved (some b)
  | ZlibOutcome.error _ => PromiseResult.resolved none

/-- A concrete invertible codec family: each compressor prepends a marker
byte, each decompressor removes it.  It satisfies `Zlib.RoundTrip` and is
used to instantiate witnesses. -/
def zTriv : Zlib where
  brotliCompressBuffer := fun _ b => 0 :: b
  brotliCompressStream := fun _ b => 0 :: b
  brotliDecompress := fun b => b.tail
  gzipCompressBuffer := fun _ b => 1 :: b
  gzipCompressStream := fun _ b => 1 :: b
  gunzip := fun b => b.tail
  deflateCompressBuffer := fun _ b => 2 :: b
  deflateCompressStream := fun _ b => 2 :: b
  inflate := fun b => b.tail

theorem zTriv_roundTrip : zTriv.RoundTrip :=
  ⟨fun _ _ => rfl, fun _ _ => rfl, fun _ _ => rfl,
   fun _ _ => rfl, fun _ _ => rfl, fun _ _ => rfl⟩

/-- Decoder selected by encoding name, as the spec's round-trip property
reads it: the raw/identity decoder is the identity function. -/
def decoderOf (z : Zlib) (name : String) : List Nat → List Nat :=
  if name = "br" then z.brotliDecompress
  else if name = "gzip" then z.gunzip
  else if name = "deflate" then z.inflate
  else fun b => b

/-- Number of `setHeaders` calls in a sink event list. -/
def countSetHeaders : List SinkEvent → Nat
  | [] => 0
  | SinkEvent.setHeaders _ :: rest => 1 + countSetHeaders rest
  | _ :: rest => countSetHeaders rest

/-- A write-shortcut for the compile command used by the lemmas below. -/
theorem sumLen_append (xs ys : List (List Nat)) :
    sumLen (xs ++ ys) = sumLen xs + sumLen ys := by
  induction xs with
  | nil => simp [sumLen]
  | cons c cs ih => simp [sumLen, ih]; omega

theorem bsRun_streaming_state (maxSize : Nat) (cs : List (List Nat)) :
    ∀ buffers size, bsRun maxSize cs buffers size false = ⟨cs, [], false, buffers⟩ := by
  induction cs with
  | nil => intro buffers size; rfl
  | cons c rest ih => intro buffers size; simp [bsRun, ih]

theorem bsRun_nil_buffering (maxSize : Nat) (buffers : List (List Nat)) (size : Nat) :
    bsRun maxSize [] buffers size true =
      ⟨[], [BSEvent.bufferComplete (List.flatten buffers)], true, buffers⟩ := by
  simp [bsRun]

theorem bsRun_cons_switch (maxSize : Nat) (c : List Nat) (rest buffers : List (List Nat))
    (size : Nat) (h : maxSize ≤ size + c.length) :
    bsRun maxSize (c :: rest) buffers size true =
      ⟨(buffers ++ [c]) ++ rest, [BSEvent.streamStart], false, buffers ++ [c]⟩ := by
  simp [bsRun, h, bsRun_streaming_state]

theorem bsRun_cons_keep (maxSize : Nat) (c : List Nat) (rest buffers : List (List Nat))
    (size : Nat) (h : ¬ maxSize ≤ size + c.length) :
    bsRun maxSize (c :: rest) buffers size true =
      bsRun maxSize rest (buffers ++ [c]) (size + c.length) true := by
  simp [bsRun, h]

/-- While buffering, a run either ends still buffering — emitting nothing,
firing exactly one `bufferComplete` with everything concatenated — or switches
to streaming, firing exactly one `streamStart` and emitting every byte. -/
theorem bsRun_buffering_cases (maxSize : Nat) (cs : List (List Nat)) :
    ∀ buffers size,
      bsRun maxSize cs buffers size true =
        ⟨[], [BSEvent.bufferComplete (List.flatten (buffers ++ cs))], true, buffers ++ cs⟩ ∨
      ((bsRun maxSize cs buffers size true).finalBufferMode = false ∧
        List.flatten (bsRun maxSize cs buffers size true).emitted =
          List.flatten buffers ++ List.flatten cs ∧
        (bsRun maxSize cs buffers size true).events = [BSEvent.streamStart]) := by
  induction cs with
  | nil =>
    intro buffers size
    left
    simp [bsRun]
  | cons c rest ih =>
    intro buffers size
    by_cases h : maxSize ≤ size + c.length
    · right
      rw [bsRun_cons_switch maxSize c rest buffers size h]
      simp
    · rcases ih (buffers ++ [c]) (size + c.length) with h1 | h1
      · left
        rw [bsRun_cons_keep maxSize c rest buffers size h, h1]
        simp
      · right
        rw [bsRun_cons_keep maxSize c rest buffers size h]
        refine ⟨h1.1, ?_, h1.2.2⟩
        rw [h1.2.1]
        simp

/-- While the running total has not yet reached the threshold, the stream ends
in buffer mode exactly when the remaining bytes keep the total below it. -/
theorem bsRun_finalBufferMode_iff (maxSize : Nat) (cs : List (List Nat)) :
    ∀ buffers size, size < maxSize →
      ((bsRun maxSize cs buffers size true).finalBufferMode = true ↔
        size + sumLen cs < maxSize) := by
  induction cs with
  | nil =>
    intro buffers size h
    rw [bsRun_nil_buffering]
    simp [sumLen]
    omega
  | cons c rest ih =>
    intro buffers size h
    by_cases hc : maxSize ≤ size + c.length
    · rw [bsRun_cons_switch maxSize c rest buffers size hc]
      simp [sumLen]
      omega
    · rw [bsRun_cons_keep maxSize c rest buffers size hc]
      rw [ih (buffers ++ [c]) (size + c.length) (by omega)]
      simp [sumLen]
      omega

theorem BufferStream_finalBufferMode_iff (maxSize : Nat) (chunks : List (List Nat))
    (h : 0 < maxSize) :
    ((BufferStream maxSize chunks).finalBufferMode = true ↔ sumLen chunks < maxSize) := by
  have := bsRun_finalBufferMode_iff maxSize chunks [] 0 h
  simpa [BufferStream] using this

/-- Below the threshold the whole run stays in buffer mode: nothing is
emitted, the chunks are all retained, and the only event is one
`bufferComplete` carrying the concatenation. -/
theorem BufferStream_buffer_case (maxSize : Nat) (chunks : List (List Nat))
    (h0 : 0 < maxSize) (h : sumLen chunks < maxSize) :
    BufferStream maxSize chunks =
      ⟨[], [BSEvent.bufferComplete (List.flatten chunks)], true, chunks⟩ := by
  have hmode : (BufferStream maxSize chunks).finalBufferMode = true :=
    (BufferStream_finalBufferMode_iff maxSize chunks h0).mpr (by omega)
  rcases bsRun_buffering_cases maxSize chunks [] 0 with h1 | h1
  · simpa [BufferStream] using h1
  · rw [BufferStream] at hmode
    rw [h1.1] at hmode
    cases hmode

/-- At or above the threshold the run switches to streaming: the single event
is `streamStart` and every input byte is emitted downstream in order. -/
theorem BufferStream_stream_case (maxSize : Nat) (chunks : List (List Nat))
    (h0 : 0 < maxSize) (h : maxSize ≤ sumLen chunks) :
    (BufferStream maxSize chunks).finalBufferMode = false ∧
    List.flatten (BufferStream maxSize chunks).emitted = List.flatten chunks ∧
    (BufferStream maxSize chunks).events = [BSEvent.streamStart] := by
  rcases bsRun_buffering_cases maxSize chunks [] 0 with h1 | h1
  · exfalso
    have hmode : (BufferStream maxSize chunks).finalBufferMode = true := by
      rw [BufferStream, h1]
    have := (BufferStream_finalBufferMode_iff maxSize chunks h0).mp hmode
    omega
  · refine ⟨h1.1, ?_, h1.2.2⟩
    have := h1.2.1
    simpa [BufferStream] using this

theorem detectEncoding_cases (z : Zlib) (t : Option String) (ig : Bool) :
    detectEncoding z t ig = ENCODINGS.br z ∨ detectEncoding z t ig = ENCODINGS.gzip z ∨
    detectEncoding z t ig = ENCODINGS.deflate z ∨ detectEncoding z t ig = ENCODINGS.raw := by
  unfold detectEncoding
  split
  · exact Or.inl rfl
  · split
    · exact Or.inr (Or.inl rfl)
    · split
      · exact Or.inr (Or.inr (Or.inl rfl))
      · exact Or.inr (Or.inr (Or.inr rfl))

theorem encodingOutOf_cases (z : Zlib) (rq : ReqHeaders) (rs : RespHeaders) (fast : Bool) :
    encodingOutOf z rq rs fast = ENCODINGS.br z ∨ encodingOutOf z rq rs fast = ENCODINGS.gzip z ∨
    encodingOutOf z rq rs fast = ENCODINGS.deflate z ∨ encodingOutOf z rq rs fast = ENCODINGS.raw := by
  unfold encodingOutOf
  split
  · exact Or.inr (Or.inr (Or.inr rfl))
  · exact detectEncoding_cases z rq.acceptEncoding _

theorem setEncoding_keeps_vary (z : Zlib) (rq : ReqHeaders) (rs : RespHeaders) (fast : Bool) :
    (headersNegotiated z rq rs fast).vary = some "accept-encoding" := by
  unfold headersNegotiated
  rcases encodingOutOf_cases z rq rs fast with h | h | h | h <;> rw [h] <;> rfl

theorem run_encodingInName (z : Zlib) (rq : ReqHeaders) (rs : RespHeaders)
    (chunks : List (List Nat)) (fast : Bool) :
    (httpStreamRecompress z rq rs chunks fast).encodingInName = (encodingInOf z rs).name := by
  unfold httpStreamRecompress
  split <;> rfl

theorem run_encodingOutName (z : Zlib) (rq : ReqHeaders) (rs : RespHeaders)
    (chunks : List (List Nat)) (fast : Bool) :
    (httpStreamRecompress z rq rs chunks fast).encodingOutName =
      (encodingOutOf z rq rs fast).name := by
  unfold httpStreamRecompress
  split <;> rfl

theorem run_status (z : Zlib) (rq : ReqHeaders) (rs : RespHeaders)
    (chunks : List (List Nat)) (fast : Bool) :
    (httpStreamRecompress z rq rs chunks fast).status = 200 := by
  unfold httpStreamRecompress
  split <;> rfl

theorem run_headers_vary (z : Zlib) (rq : ReqHeaders) (rs : RespHeaders)
    (chunks : List (List Nat)) (fast : Bool) :
    (httpStreamRecompress z rq rs chunks fast).headers.vary = some "accept-encoding" := by
  unfold httpStreamRecompress
  have h := setEncoding_keeps_vary z rq rs fast
  split
  · simpa [bufferFinalize] using h
  · simpa [streamFinalize] using h

theorem run_headers_contentEncoding (z : Zlib) (rq : ReqHeaders) (rs : RespHeaders)
    (chunks : List (List Nat)) (fast : Bool) :
    (httpStreamRecompress z rq rs chunks fast).headers.contentEncoding =
      (headersNegotiated z rq rs fast).contentEncoding := by
  unfold httpStreamRecompress
  split <;> rfl

/-- The pipeline streams exactly when the decoded byte total reaches the
16 MiB threshold. -/
theorem run_mode_stream_iff (z : Zlib) (rq : ReqHeaders) (rs : RespHeaders)
    (chunks : List (List Nat)) (fast : Bool) :
    ((httpStreamRecompress z rq rs chunks fast).mode = Mode.stream ↔
      16 * MB ≤ sumLen (decodedChunks z rs chunks)) := by
  have h0 : 0 < 16 * MB := by norm_num [MB]
  have hiff := BufferStream_finalBufferMode_iff (16 * MB) (decodedChunks z rs chunks) h0
  unfold httpStreamRecompress
  split
  case isTrue h =>
    have := hiff.mp h
    simp [bufferFinalize]
    omega
  case isFalse h =>
    have : ¬ sumLen (decodedChunks z rs chunks) < 16 * MB := fun hlt => h (hiff.mpr hlt)
    simp [streamFinalize]
    omega

theorem decodedChunks_flatten (z : Zlib) (rs : RespHeaders) (chunks : List (List Nat)) :
    List.flatten (decodedChunks z rs chunks) =
      decoderOf z (encodingInOf z rs).name (List.flatten chunks) := by
  unfold decodedChunks
  rcases detectEncoding_cases z rs.contentEncoding false with h | h | h | h <;>
    rw [show encodingInOf z rs = _ from h] <;>
    simp [ENCODINGS.br, ENCODINGS.gzip, ENCODINGS.deflate, ENCODINGS.raw, decoderOf]

theorem encodingOutOf_name_gzip (z : Zlib) (rq : ReqHeaders) (rs : RespHeaders) (fast : Bool)
    (h : (encodingOutOf z rq rs fast).name = "gzip") :
    encodingOutOf z rq rs fast = ENCODINGS.gzip z := by
  rcases encodingOutOf_cases z rq rs fast with h1 | h1 | h1 | h1 <;> rw [h1] at h ⊢ <;>
    first
      | rfl
      | simp [ENCODINGS.br, ENCODINGS.deflate, ENCODINGS.raw] at h

theorem encodingInOf_name_gzip (z : Zlib) (rs : RespHeaders)
    (h : (encodingInOf z rs).name = "gzip") :
    encodingInOf z rs = ENCODINGS.gzip z := by
  rcases detectEncoding_cases z rs.contentEncoding false with h1 | h1 | h1 | h1 <;>
    rw [show encodingInOf z rs = _ from h1] at h ⊢ <;>
    first
      | rfl
      | simp [ENCODINGS.br, ENCODINGS.deflate, ENCODINGS.raw] at h

/-- C2: after any pipeline run, `vary` equals accept-encoding, and exactly one
of content-length-present / transfer-encoding-chunked holds: in buffer mode
content-length equals the exact number of body bytes written and
transfer-encoding is deleted, in stream mode content-length is deleted and
transfer-encoding is chunked. -/
theorem claim_C2_header_consistency (z : Zlib) (rq : ReqHeaders) (rs : RespHeaders)
    (chunks : List (List Nat)) (fast : Bool) :
    (httpStreamRecompress z rq rs chunks fast).headers.vary = some "accept-encoding" ∧
    (((httpStreamRecompress z rq rs chunks fast).headers.contentLength =
        some (httpStreamRecompress z rq rs chunks fast).body.length ∧
      (httpStreamRecompress z rq rs chunks fast).headers.transferEncoding = none) ∨
     ((httpStreamRecompress z rq rs chunks fast).headers.contentLength = none ∧
      (httpStreamRecompress z rq rs chunks fast).headers.transferEncoding = some "chunked")) := by
  refine ⟨run_headers_vary z rq rs chunks fast, ?_⟩
  unfold httpStreamRecompress
  split
  · left
    exact ⟨rfl, rfl⟩
  · right
    exact ⟨rfl, rfl⟩

/-- C8: on one BufferStream instance the two callbacks are mutually exclusive
and each fires at most once; with a positive threshold the transition fires
exactly when the byte total reaches the threshold (inclusive, so an input of
exactly threshold bytes streams), and otherwise end-of-input fires one
`bufferComplete` with the full concatenation. -/
theorem claim_C8_bufferstream_events (maxSize : Nat) (chunks : List (List Nat))
    (h : 0 < maxSize) :
    (BufferStream maxSize chunks).events =
      (if maxSize ≤ sumLen chunks then [BSEvent.streamStart]
       else [BSEvent.bufferComplete (List.flatten chunks)]) := by
  by_cases hc : maxSize ≤ sumLen chunks
  · rw [if_pos hc]
    exact (BufferStream_stream_case maxSize chunks h hc).2.2
  · rw [if_neg hc]
    rw [BufferStream_buffer_case maxSize chunks h (by omega)]

theorem claim_C8_witness :
    (BufferStream 3 [[1, 2, 3]]).events =
      (if 3 ≤ sumLen [[1, 2, 3]] then [BSEvent.streamStart]
       else [BSEvent.bufferComplete (List.flatten [[1, 2, 3]])]) :=
  claim_C8_bufferstream_events 3 [[1, 2, 3]] (by decide)

/-- C1: for every negotiated encoding pair and every input, decoding the bytes
written to the sink with the output encoding's decoder yields the same bytes
as decoding the original input with the input encoding's decoder — the
pipeline is a pure re-encoding. -/
theorem claim_C1_roundtrip (z : Zlib) (hz : z.RoundTrip) (rq : ReqHeaders) (rs : RespHeaders)
    (chunks : List (List Nat)) (fast : Bool) :
    decoderOf z (httpStreamRecompress z rq rs chunks fast).encodingOutName
        (httpStreamRecompress z rq rs chunks fast).body =
      decoderOf z (httpStreamRecompress z rq rs chunks fast).encodingInName
        (List.flatten chunks) := by
  obtain ⟨hbr1, hbr2, hgz1, hgz2, hdf1, hdf2⟩ := hz
  rw [run_encodingInName, run_encodingOutName, ← decodedChunks_flatten]
  have h0 : 0 < 16 * MB := by norm_num [MB]
  unfold httpStreamRecompress
  split
  case isTrue hbm =>
    have hlt : sumLen (decodedChunks z rs chunks) < 16 * MB :=
      (BufferStream_finalBufferMode_iff _ _ h0).mp hbm
    have hbuf := BufferStream_buffer_case (16 * MB) (decodedChunks z rs chunks) h0 hlt
    simp only [bufferFinalize]
    rw [hbuf]
    rcases encodingOutOf_cases z rq rs fast with h | h | h | h <;> rw [h] <;>
      simp [ENCODINGS.br, ENCODINGS.gzip, ENCODINGS.deflate, ENCODINGS.raw, decoderOf,
        hbr1, hgz1, hdf1]
  case isFalse hbm =>
    have hge : 16 * MB ≤ sumLen (decodedChunks z rs chunks) := by
      rcases Nat.lt_or_ge (sumLen (decodedChunks z rs chunks)) (16 * MB) with hlt | hge
      · exact absurd ((BufferStream_finalBufferMode_iff _ _ h0).mpr hlt) hbm
      · exact hge
    obtain ⟨-, hemit, -⟩ := BufferStream_stream_case (16 * MB) (decodedChunks z rs chunks) h0 hge
    simp only [streamFinalize]
    rw [hemit]
    rcases encodingOutOf_cases z rq rs fast with h | h | h | h <;> rw [h] <;>
      simp [ENCODINGS.br, ENCODINGS.gzip, ENCODINGS.deflate, ENCODINGS.raw, decoderOf,
        applyCompressStream, hbr2, hgz2, hdf2]

theorem claim_C1_witness :
    decoderOf zTriv
        (httpStreamRecompress zTriv ⟨some "br"⟩ ⟨some "gzip", none, none, none, none⟩
          [[1, 2, 3]] false).encodingOutName
        (httpStreamRecompress zTriv ⟨some "br"⟩ ⟨some "gzip", none, none, none, none⟩
          [[1, 2, 3]] false).body =
      decoderOf zTriv
        (httpStreamRecompress zTriv ⟨some "br"⟩ ⟨some "gzip", none, none, none, none⟩
          [[1, 2, 3]] false).encodingInName
        (List.flatten [[1, 2, 3]]) :=
  claim_C1_roundtrip zTriv zTriv_roundTrip ⟨some "br"⟩ ⟨some "gzip", none, none, none, none⟩
    [[1, 2, 3]] false

/-- C3 counterexample: a content-encoding of "brotli" — not the token "br",
but containing it as a substring — selects the brotli decoder for encodingIn,
so the detection is not an exact-token lookup. -/
theorem claim_C3_counterexample :
    (httpStreamRecompress zTriv ⟨none⟩ ⟨some "brotli", none, none, none, none⟩
      [] false).encodingInName = "br" := by
  decide

/-- C3 amended: encodingIn is determined by the same case-insensitive
substring-containment logic as the accept-encoding side, with priority
br > gzip > deflate > identity, applied to the declared content-encoding and
defaulting to identity when the header is absent or matches nothing. -/
theorem claim_C3_amended (z : Zlib) (rq : ReqHeaders) (rs : RespHeaders)
    (chunks : List (List Nat)) (fast : Bool) :
    (httpStreamRecompress z rq rs chunks fast).encodingInName =
      (if strContains (strLower (jsStr rs.contentEncoding)) "br" then "br"
       else if strContains (strLower (jsStr rs.contentEncoding)) "gzip" then "gzip"
       else if strContains (strLower (jsStr rs.contentEncoding)) "deflate" then "deflate"
       else "raw") := by
  rw [run_encodingInName]
  unfold encodingInOf detectEncoding
  simp only [Bool.not_false, Bool.true_and]
  split
  · simp [ENCODINGS.br]
  · split
    · simp [ENCODINGS.gzip]
    · split
      · simp [ENCODINGS.deflate]
      · simp [ENCODINGS.raw]

/-- C4 amended: every call submits exactly one job to the concurrency-1
queue, and that job runs the whole pipeline: it is a stream-mode job exactly
when the decoded payload reaches the 16 MiB threshold, so stream-mode work
does occupy the queue's single slot. -/
theorem claim_C4_amended (z : Zlib) (rq : ReqHeaders) (rs : RespHeaders)
    (chunks : List (List Nat)) (fast : Bool) :
    queuedJobs z rq rs chunks fast = [⟨httpStreamRecompress z rq rs chunks fast⟩] ∧
    ((httpStreamRecompress z rq rs chunks fast).mode = Mode.stream ↔
      16 * MB ≤ sumLen (decodedChunks z rs chunks)) :=
  ⟨rfl, run_mode_stream_iff z rq rs chunks fast⟩

/-- C4 counterexample: a 16 MiB identity-encoded input takes the stream path,
yet its entire run is the job handed to the queue — so not every queued job is
a buffer-mode finalization. -/
theorem sumLen_singleton (c : List Nat) : sumLen [c] = c.length := by
  simp [sumLen]

theorem claim_C4_counterexample :
    (queuedJobs zTriv ⟨some "gzip"⟩ ⟨none, none, none, none, none⟩
        [List.replicate (16 * MB) 0] false).all
      (fun j => j.run.mode == Mode.buffer) = false := by
  have hmode : (httpStreamRecompress zTriv ⟨some "gzip"⟩ ⟨none, none, none, none, none⟩
      [List.replicate (16 * MB) 0] false).mode = Mode.stream := by
    rw [run_mode_stream_iff]
    rw [show decodedChunks zTriv ⟨none, none, none, none, none⟩ [List.replicate (16 * MB) 0] =
          [List.replicate (16 * MB) 0] from rfl]
    rw [sumLen_singleton, List.length_replicate]
  simp [queuedJobs, hmode]

/-- C5: the compressBuffer executors `(e, b) => res(b)` ignore the error
argument, so a reported codec error resolves the promise with `undefined`
instead of surfacing a terminal failure. -/
theorem claim_C5_error_swallowed :
    compressBufferPromise (ZlibOutcome.error "zlib codec failure") =
      PromiseResult.resolved none := rfl

theorem stripSlashRestAux_no_lineterm (l : List Char)
    (h : ∀ c ∈ l, isLineTerm c = false) :
    stripSlashRestAux l = l.takeWhile (fun c => c != '/') := by
  induction l with
  | nil => rfl
  | cons c cs ih =>
    by_cases hc : (c == '/') = true
    · have hceq : c = '/' := by simpa using hc
      subst hceq
      have hcs : cs.dropWhile (fun d => !isLineTerm d) = [] := by
        rw [List.dropWhile_eq_nil_iff]
        intro d hd
        simp [h d (List.mem_cons_of_mem _ hd)]
      simp [stripSlashRestAux, hcs, List.takeWhile_cons]
    · have hne : (c != '/') = true := by simpa using hc
      simp [stripSlashRestAux, hc, List.takeWhile_cons, hne,
        ih (fun d hd => h d (List.mem_cons_of_mem c hd))]

theorem mediaType_of_token (rs : RespHeaders)
    (hnl : (jsStr rs.contentType).data.all (fun c => !isLineTerm c) = true)
    (htok : strLower (takeBeforeSlash (jsStr rs.contentType)) = "audio" ∨
            strLower (takeBeforeSlash (jsStr rs.contentType)) = "image" ∨
            strLower (takeBeforeSlash (jsStr rs.contentType)) = "video") :
    mediaType rs = true := by
  have h : ∀ c ∈ (jsStr rs.contentType).data, isLineTerm c = false := by
    intro c hc
    have := List.all_eq_true.mp hnl c hc
    simpa using this
  have heq : stripSlashRest (jsStr rs.contentType) = takeBeforeSlash (jsStr rs.contentType) := by
    unfold stripSlashRest takeBeforeSlash
    rw [stripSlashRestAux_no_lineterm _ h]
  unfold mediaType
  rw [heq]
  rcases htok with h1 | h1 | h1 <;> simp [h1]

/-- C6 amended: whenever the content-type value contains no line terminator
and its primary token (the text before '/', lower-cased) is image, audio or
video, encodingOut is identity regardless of accept-encoding and the
content-encoding response header is removed.  (The restriction is forced by
the source's `replace(/\/.*\/, '')`, whose `.` stops at line terminators.) -/
theorem claim_C6_amended (z : Zlib) (rq : ReqHeaders) (rs : RespHeaders)
    (chunks : List (List Nat)) (fast : Bool)
    (hnl : (jsStr rs.contentType).data.all (fun c => !isLineTerm c) = true)
    (htok : strLower (takeBeforeSlash (jsStr rs.contentType)) = "audio" ∨
            strLower (takeBeforeSlash (jsStr rs.contentType)) = "image" ∨
            strLower (takeBeforeSlash (jsStr rs.contentType)) = "video") :
    (httpStreamRecompress z rq rs chunks fast).encodingOutName = "raw" ∧
    (httpStreamRecompress z rq rs chunks fast).headers.contentEncoding = none := by
  have hm : mediaType rs = true := mediaType_of_token rs hnl htok
  constructor
  · rw [run_encodingOutName]
    unfold encodingOutOf
    simp [hm, ENCODINGS.raw]
  · rw [run_headers_contentEncoding]
    unfold headersNegotiated encodingOutOf
    simp [hm, ENCODINGS.raw]

theorem claim_C6_witness :
    (jsStr (⟨none, some "image/png", none, none, none⟩ : RespHeaders).contentType).data.all
        (fun c => !isLineTerm c) = true ∧
    ((httpStreamRecompress zTriv ⟨some "br"⟩ ⟨none, some "image/png", none, none, none⟩
        [] false).encodingOutName = "raw" ∧
      (httpStreamRecompress zTriv ⟨some "br"⟩ ⟨none, some "image/png", none, none, none⟩
        [] false).headers.contentEncoding = none) :=
  ⟨by decide,
    claim_C6_amended zTriv ⟨some "br"⟩ ⟨none, some "image/png", none, none, none⟩ [] false
      (by decide) (Or.inr (Or.inl (by decide)))⟩

/-- C6 counterexample: the content-type "image/png\nx" has primary token
image, yet the regexp-based stripping leaves "image\nx", so the media
exclusion is skipped: with accept-encoding br the output encoding is brotli
and content-encoding is set, not removed. -/
theorem claim_C6_counterexample :
    strLower (takeBeforeSlash (jsStr (some "image/png\nx"))) = "image" ∧
    (httpStreamRecompress zTriv ⟨some "br"⟩ ⟨none, some "image/png\nx", none, none, none⟩
        [] false).encodingOutName = "br" ∧
    (httpStreamRecompress zTriv ⟨some "br"⟩ ⟨none, some "image/png\nx", none, none, none⟩
        [] false).headers.contentEncoding = some "br" := by
  refine ⟨by decide, by decide, by decide⟩

/-- C7: with fastCompression on and a gzip input encoding, encodingOut is
never brotli even when the client accepts it: detection skips br and falls
through the fixed priority gzip > deflate > identity (media types force
identity regardless). -/
theorem claim_C7_fast_gzip_no_brotli (z : Zlib) (rq : ReqHeaders) (rs : RespHeaders)
    (chunks : List (List Nat)) (hin : (encodingInOf z rs).name = "gzip") :
    (httpStreamRecompress z rq rs chunks true).encodingOutName =
      (if mediaType rs then "raw"
       else if strContains (strLower (jsStr rq.acceptEncoding)) "gzip" then "gzip"
       else if strContains (strLower (jsStr rq.acceptEncoding)) "deflate" then "deflate"
       else "raw") := by
  rw [run_encodingOutName]
  unfold encodingOutOf detectEncoding
  rw [hin]
  by_cases hm : mediaType rs = true
  · simp [hm, ENCODINGS.raw]
  · have hm' : mediaType rs = false := by simpa using hm
    simp only [hm', Bool.false_eq_true, if_false]
    simp only [beq_self_eq_true, Bool.and_true, Bool.true_and, Bool.not_true,
      Bool.false_and, Bool.false_eq_true, if_false]
    split
    · simp [ENCODINGS.gzip]
    · split
      · simp [ENCODINGS.deflate]
      · simp [ENCODINGS.raw]

theorem claim_C7_witness :
    (httpStreamRecompress zTriv ⟨some "gzip, deflate, br"⟩
        ⟨some "gzip", some "text/plain", none, none, none⟩ [] true).encodingOutName =
      (if mediaType ⟨some "gzip", some "text/plain", none, none, none⟩ then "raw"
       else if strContains (strLower (jsStr (some "gzip, deflate, br"))) "gzip" then "gzip"
       else if strContains (strLower (jsStr (some "gzip, deflate, br"))) "deflate" then "deflate"
       else "raw") :=
  claim_C7_fast_gzip_no_brotli zTriv ⟨some "gzip, deflate, br"⟩
    ⟨some "gzip", some "text/plain", none, none, none⟩ [] (by decide)

/-- The whole-buffer compressor the pipeline uses for an encoding name
(identity for raw, whose compressBuffer returns the buffer unchanged). -/
def compressBufferOf (z : Zlib) (name : String) : Bool → List Nat → List Nat :=
  if name = "br" then z.brotliCompressBuffer
  else if name = "gzip" then z.gzipCompressBuffer
  else if name = "deflate" then z.deflateCompressBuffer
  else fun _ b => b

/-- The streaming compressor the pipeline uses for an encoding name
(identity for raw, whose compressStream returns no transform). -/
def compressStreamOf (z : Zlib) (name : String) : Bool → List Nat → List Nat :=
  if name = "br" then z.brotliCompressStream
  else if name = "gzip" then z.gzipCompressStream
  else if name = "deflate" then z.deflateCompressStream
  else fun _ b => b

theorem compressBufferOf_names (z : Zlib) :
    compressBufferOf z "br" = z.brotliCompressBuffer ∧
    compressBufferOf z "gzip" = z.gzipCompressBuffer ∧
    compressBufferOf z "deflate" = z.deflateCompressBuffer ∧
    compressBufferOf z "raw" = fun _ b => b :=
  ⟨rfl, rfl, rfl, rfl⟩

theorem compressStreamOf_names (z : Zlib) :
    compressStreamOf z "br" = z.brotliCompressStream ∧
    compressStreamOf z "gzip" = z.gzipCompressStream ∧
    compressStreamOf z "deflate" = z.deflateCompressStream ∧
    compressStreamOf z "raw" = fun _ b => b :=
  ⟨rfl, rfl, rfl, rfl⟩

/-- C9: the pipeline never takes a pass-through shortcut: on every call — in
particular whenever the negotiated encodings are equal, be it gzip, brotli or
deflate — the body written to the sink is the input fully decoded with
encodingIn's decoder and freshly recompressed with encodingOut's compressor at
the selected preset (whole-buffer or streaming), and content-length, when
present, is recomputed from those freshly compressed bytes. -/
theorem claim_C9_no_shortcut (z : Zlib) (rq : ReqHeaders) (rs : RespHeaders)
    (chunks : List (List Nat)) (fast : Bool) :
    (httpStreamRecompress z rq rs chunks fast).body =
      (if (httpStreamRecompress z rq rs chunks fast).mode = Mode.buffer
       then compressBufferOf z (httpStreamRecompress z rq rs chunks fast).encodingOutName fast
              (decoderOf z (httpStreamRecompress z rq rs chunks fast).encodingInName
                (List.flatten chunks))
       else compressStreamOf z (httpStreamRecompress z rq rs chunks fast).encodingOutName fast
              (decoderOf z (httpStreamRecompress z rq rs chunks fast).encodingInName
                (List.flatten chunks))) ∧
    (httpStreamRecompress z rq rs chunks fast).headers.contentLength =
      (if (httpStreamRecompress z rq rs chunks fast).mode = Mode.buffer
       then some (httpStreamRecompress z rq rs chunks fast).body.length
       else none) := by
  rw [run_encodingInName, run_encodingOutName, ← decodedChunks_flatten]
  have h0 : 0 < 16 * MB := by norm_num [MB]
  unfold httpStreamRecompress
  split
  case isTrue hbm =>
    have hlt : sumLen (decodedChunks z rs chunks) < 16 * MB :=
      (BufferStream_finalBufferMode_iff _ _ h0).mp hbm
    have hbuf := BufferStream_buffer_case (16 * MB) (decodedChunks z rs chunks) h0 hlt
    constructor
    · simp only [bufferFinalize]
      rw [hbuf]
      rcases encodingOutOf_cases z rq rs fast with h | h | h | h <;> rw [h] <;>
        simp [ENCODINGS.br, ENCODINGS.gzip, ENCODINGS.deflate, ENCODINGS.raw,
          compressBufferOf]
    · simp [bufferFinalize]
  case isFalse hbm =>
    have hge : 16 * MB ≤ sumLen (decodedChunks z rs chunks) := by
      rcases Nat.lt_or_ge (sumLen (decodedChunks z rs chunks)) (16 * MB) with hlt | hge
      · exact absurd ((BufferStream_finalBufferMode_iff _ _ h0).mpr hlt) hbm
      · exact hge
    obtain ⟨-, hemit, -⟩ :=
      BufferStream_stream_case (16 * MB) (decodedChunks z rs chunks) h0 hge
    constructor
    · simp only [streamFinalize]
      rw [hemit]
      rcases encodingOutOf_cases z rq rs fast with h | h | h | h <;> rw [h] <;>
        simp [ENCODINGS.br, ENCODINGS.gzip, ENCODINGS.deflate, ENCODINGS.raw,
          compressStreamOf, applyCompressStream]
    · simp [streamFinalize]

/-- Fallible behaviour of the Node zlib decompress streams that src/index.js
pipes in at lines 119-120: a decompressor may emit an 'error' event instead of
producing output.  `none` models that error case.  src/index.js installs no
error handler anywhere and `pipe` does not forward errors, so an errored
decompressor never delivers end-of-input to the BufferStream: neither callback
fires and nothing is written to the response. -/
structure ZlibDecodeF where
  brotliDecompressF : List Nat → Option (List Nat)
  gunzipF : List Nat → Option (List Nat)
  inflateF : List Nat → Option (List Nat)

/-- The fallible decompressor attached for a descriptor (none for raw, which
has no decompress stream). -/
def decompressStreamF (zf : ZlibDecodeF) (e : Encoding) : Option (List Nat → Option (List Nat)) :=
  if e.name = "br" then some zf.brotliDecompressF
  else if e.name = "gzip" then some zf.gunzipF
  else if e.name = "deflate" then some zf.inflateF
  else none

/-- `decodedChunks` refined with fallible decoders: `none` when the attached
decompressor errors. -/
def decodedChunksF (z : Zlib) (zf : ZlibDecodeF) (rs : RespHeaders)
    (chunks : List (List Nat)) : Option (List (List Nat)) :=
  match decompressStreamF zf (encodingInOf z rs) with
  | some d =>
    match d (List.flatten chunks) with
    | some b => some [b]
    | none => none
  | none => some chunks

/-- Buffer-mode finalization applied to already-decoded chunks (the same
callback as `bufferFinalize`, src/index.js lines 124-139). -/
def bufferFinalizeOn (z : Zlib) (rq : ReqHeaders) (rs : RespHeaders) (fast : Bool)
    (dec : List (List Nat)) : RunResult :=
  let encodingOut := encodingOutOf z rq rs fast
  let buffer := List.flatten (BufferStream (16 * MB) dec).buffered
  let buffer2 := encodingOut.compressBuffer buffer fast
  let h3 := { headersNegotiated z rq rs fast with
              transferEncoding := none, contentLength := some buffer2.length }
  { encodingInName := (encodingInOf z rs).name
    encodingOutName := encodingOut.name
    mode := Mode.buffer
    status := 200
    headers := h3
    body := buffer2
    events := [SinkEvent.setStatus 200, SinkEvent.setHeaders h3, SinkEvent.endBody buffer2] }

/-- Stream-mode finalization applied to already-decoded chunks (the same
callback as `streamFinalize`, src/index.js lines 140-155). -/
def streamFinalizeOn (z : Zlib) (rq : ReqHeaders) (rs : RespHeaders) (fast : Bool)
    (dec : List (List Nat)) : RunResult :=
  let encodingOut := encodingOutOf z rq rs fast
  let h3 := { headersNegotiated z rq rs fast with
              transferEncoding := some "chunked", contentLength := none }
  let body := applyCompressStream encodingOut fast
      (List.flatten (BufferStream (16 * MB) dec).emitted)
  { encodingInName := (encodingInOf z rs).name
    encodingOutName := encodingOut.name
    mode := Mode.stream
    status := 200
    headers := h3
    body := body
    events := [SinkEvent.setStatus 200, SinkEvent.setHeaders h3, SinkEvent.pipeBody body] }

/-- `httpStreamRecompress` (src/index.js lines 88-158) with the decode stage
allowed to fail as real zlib streams do: when the decompressor errors, the run
never finalizes — `none`: no status, no headers and no body are ever written. -/
def httpStreamRecompressF (z : Zlib) (zf : ZlibDecodeF) (rq : ReqHeaders) (rs : RespHeaders)
    (streamIn : List (List Nat)) (fast : Bool) : Option RunResult :=
  match decodedChunksF z zf rs streamIn with
  | none => none
  | some dec =>
    some (if (BufferStream (16 * MB) dec).finalBufferMode
          then bufferFinalizeOn z rq rs fast dec
          else streamFinalizeOn z rq rs fast dec)

/-- Real Node zlib decompressors error on a zero-byte input stream (truncated
or empty compressed data, 'unexpected end of file'); on non-empty input this
family decompresses like `zTriv` by dropping the marker byte. -/
def zErrOnEmpty : ZlibDecodeF where
  brotliDecompressF := fun b => if b.isEmpty then none else some b.tail
  gunzipF := fun b => if b.isEmpty then none else some b.tail
  inflateF := fun b => if b.isEmpty then none else some b.tail

theorem encodingInOf_name_raw (z : Zlib) (rs : RespHeaders)
    (h : (encodingInOf z rs).name = "raw") :
    encodingInOf z rs = ENCODINGS.raw := by
  rcases detectEncoding_cases z rs.contentEncoding false with h1 | h1 | h1 | h1 <;>
    rw [show encodingInOf z rs = _ from h1] at h ⊢ <;>
    first
      | rfl
      | simp [ENCODINGS.br, ENCODINGS.gzip, ENCODINGS.deflate] at h

/-- C10 counterexample: with content-encoding gzip (so a gunzip stream is
attached) and a zero-byte input, the decompressor errors as real zlib does on
empty input; the pipeline never finalizes at all — no buffer-mode completion,
no status 200, no headers — refuting "always takes buffer-mode finalization". -/
theorem claim_C10_counterexample :
    httpStreamRecompressF zTriv zErrOnEmpty ⟨none⟩ ⟨some "gzip", none, none, none, none⟩
      [] false = none := by
  rfl

/-- C10 amended: a zero-byte input takes buffer-mode finalization when
encodingIn is identity (no recognized content-encoding, so no decompressor is
attached): onBufferComplete fires with the empty byte sequence, status 200 and
headers are written exactly once, content-length is the length of
encodingOut.compressBuffer on the empty buffer (0 for identity), and
transfer-encoding is never chunked; whereas whenever a decompressor is
attached, a zero-byte input makes the real decoder error and the pipeline
writes nothing at all. -/
theorem claim_C10_amended (z : Zlib) (zf : ZlibDecodeF) (rq : ReqHeaders) (rs : RespHeaders)
    (fast : Bool) (hin : (encodingInOf z rs).name = "raw") :
    httpStreamRecompressF z zf rq rs [] fast = some (httpStreamRecompress z rq rs [] fast) ∧
    (BufferStream (16 * MB) (decodedChunks z rs [])).events = [BSEvent.bufferComplete []] ∧
    (httpStreamRecompress z rq rs [] fast).mode = Mode.buffer ∧
    (httpStreamRecompress z rq rs [] fast).status = 200 ∧
    (httpStreamRecompress z rq rs [] fast).body =
      (encodingOutOf z rq rs fast).compressBuffer [] fast ∧
    (httpStreamRecompress z rq rs [] fast).headers.contentLength =
      some ((encodingOutOf z rq rs fast).compressBuffer [] fast).length ∧
    (httpStreamRecompress z rq rs [] fast).headers.transferEncoding = none ∧
    countSetHeaders (httpStreamRecompress z rq rs [] fast).events = 1 ∧
    ENCODINGS.raw.compressBuffer [] fast = [] := by
  have hinEq : encodingInOf z rs = ENCODINGS.raw := encodingInOf_name_raw z rs hin
  have hdec : decodedChunks z rs [] = [] := by
    unfold decodedChunks
    rw [hinEq]
    rfl
  have hF : decodedChunksF z zf rs [] = some [] := by
    unfold decodedChunksF decompressStreamF
    rw [hinEq]
    rfl
  have hrun : httpStreamRecompress z rq rs [] fast = bufferFinalize z rq rs [] fast := by
    unfold httpStreamRecompress
    rw [hdec]
    rfl
  have hbf : bufferFinalize z rq rs [] fast = bufferFinalizeOn z rq rs fast [] := by
    unfold bufferFinalize bufferFinalizeOn
    rw [hdec]
  refine ⟨?_, ?_, ?_, ?_, ?_, ?_, ?_, ?_, rfl⟩
  · unfold httpStreamRecompressF
    rw [hF, hrun, hbf]
    rfl
  · rw [hdec]
    rfl
  · rw [hrun]
    rfl
  · rw [hrun]
    rfl
  · rw [hrun, hbf]
    rfl
  · rw [hrun, hbf]
    rfl
  · rw [hrun]
    rfl
  · rw [hrun]
    rfl

theorem claim_C10_witness :
    httpStreamRecompressF zTriv zErrOnEmpty ⟨none⟩ ⟨none, none, none, none, none⟩ [] true =
      some (httpStreamRecompress zTriv ⟨none⟩ ⟨none, none, none, none, none⟩ [] true) ∧
    (BufferStream (16 * MB)
        (decodedChunks zTriv ⟨none, none, none, none, none⟩ [])).events =
      [BSEvent.bufferComplete []] ∧
    (httpStreamRecompress zTriv ⟨none⟩ ⟨none, none, none, none, none⟩ [] true).mode =
      Mode.buffer ∧
    (httpStreamRecompress zTriv ⟨none⟩ ⟨none, none, none, none, none⟩ [] true).status = 200 ∧
    (httpStreamRecompress zTriv ⟨none⟩ ⟨none, none, none, none, none⟩ [] true).body =
      (encodingOutOf zTriv ⟨none⟩ ⟨none, none, none, none, none⟩ true).compressBuffer [] true ∧
    (httpStreamRecompress zTriv ⟨none⟩ ⟨none, none, none, none, none⟩
        [] true).headers.contentLength =
      some ((encodingOutOf zTriv ⟨none⟩ ⟨none, none, none, none, none⟩
          true).compressBuffer [] true).length ∧
    (httpStreamRecompress zTriv ⟨none⟩ ⟨none, none, none, none, none⟩
        [] true).headers.transferEncoding = none ∧
    countSetHeaders (httpStreamRecompress zTriv ⟨none⟩ ⟨none, none, none, none, none⟩
        [] true).events = 1 ∧
    ENCODINGS.raw.compressBuffer [] true = [] :=
  claim_C10_amended zTriv zErrOnEmpty ⟨none⟩ ⟨none, none, none, none, none⟩ true (by decide)
